import Mathlib

/-!
Verification of the WebAuthn protocol/codec core of the
react-native-passkey-example repository.

Strings from the TypeScript source are modelled as `List Char`, byte arrays
(`Uint8Array` / `Buffer`) as `List Nat` whose elements are below 256 where that
matters, and thrown exceptions as `Except`/`Option` results.  All definitions
are translated from the source files `src/utils/parseCred.ts` and the example
server (the file defining `uint8ArrayToBase64Url`, `base64urlToUint8Array`,
`parseCoseP256Key` and the `/verify-registration` and `/verify-login`
handlers); the one external collaborator whose code is not in the repository,
`verifyAuthenticationResponse` from `@simplewebauthn/server`, is modelled from
the spec and marked as such.
-/

/-- Hex digit characters used by `toString(16)`. -/
def hexChars : List Char := "0123456789abcdef".data

/-- Hex digit for a value below 16 (as produced by `toString(16)`). -/
def hexChar (n : Nat) : Char := hexChars.getD n '0'

/-- Model of `Buffer.from(bytes).toString("hex")` /
`byte.toString(16).padStart(2, "0")` joined over an array of bytes:
two lowercase hex digits per byte. -/
def bytesToHex : List Nat → List Char
  | [] => []
  | b :: bs => hexChar (b / 16) :: hexChar (b % 16) :: bytesToHex bs

theorem bytesToHex_length (bs : List Nat) : (bytesToHex bs).length = 2 * bs.length := by
  induction bs with
  | nil => rfl
  | cons b bs ih => simp [bytesToHex, ih]; omega

/-- The standard base64 alphabet. -/
def b64Alphabet : List Char :=
  "ABCDEFGHIJKLMNOPQRSTUVWXYZabcdefghijklmnopqrstuvwxyz0123456789+/".data

/-- Character of the standard base64 alphabet at a 6-bit index. -/
def b64Char (n : Nat) : Char := b64Alphabet.getD n 'A'

/-- Index of a character in the standard base64 alphabet (as used by `atob`,
which rejects anything outside this alphabet other than canonical padding). -/
def b64StdIdx (c : Char) : Option Nat :=
  if 'A' ≤ c ∧ c ≤ 'Z' then some (c.toNat - 65)
  else if 'a' ≤ c ∧ c ≤ 'z' then some (c.toNat - 97 + 26)
  else if '0' ≤ c ∧ c ≤ '9' then some (c.toNat - 48 + 52)
  else if c = '+' then some 62
  else if c = '/' then some 63
  else none

/-- Index of a character accepting both the standard and the url-safe base64
alphabets, as Node's `Buffer.from(-, "base64")` does. -/
def b64AnyIdx (c : Char) : Option Nat :=
  if c = '-' then some 62
  else if c = '_' then some 63
  else b64StdIdx c

/-- Model of `Buffer.from(bytes).toString("base64")`: standard base64 with
canonical `=` padding. -/
def encodeB64 : List Nat → List Char
  | [] => []
  | [b1] => [b64Char (b1 / 4), b64Char (b1 % 4 * 16), '=', '=']
  | [b1, b2] =>
      [b64Char (b1 / 4), b64Char (b1 % 4 * 16 + b2 / 16), b64Char (b2 % 16 * 4), '=']
  | b1 :: b2 :: b3 :: rest =>
      b64Char (b1 / 4) :: b64Char (b1 % 4 * 16 + b2 / 16) ::
        b64Char (b2 % 16 * 4 + b3 / 64) :: b64Char (b3 % 64) :: encodeB64 rest

/-- Model of `atob` on input whose length is a multiple of four (the only
shape `base64urlToUint8Array` ever feeds it after re-padding): groups of four
characters of the standard alphabet, with canonical trailing `=` padding, and
failure on anything else.  The returned naturals are the byte values obtained
by `charCodeAt` on the binary string. -/
def atobB64 : List Char → Option (List Nat)
  | [] => some []
  | c1 :: c2 :: c3 :: c4 :: rest =>
    match b64StdIdx c1, b64StdIdx c2 with
    | some i1, some i2 =>
      if c3 = '=' then
        if c4 = '=' ∧ rest = [] then some [i1 * 4 + i2 / 16] else none
      else
        match b64StdIdx c3 with
        | some i3 =>
          if c4 = '=' then
            if rest = [] then some [i1 * 4 + i2 / 16, i2 % 16 * 16 + i3 / 4] else none
          else
            match b64StdIdx c4, atobB64 rest with
            | some i4, some bs =>
                some ((i1 * 4 + i2 / 16) :: (i2 % 16 * 16 + i3 / 4) :: (i3 % 4 * 64 + i4) :: bs)
            | _, _ => none
        | none => none
    | _, _ => none
  | _ => none

/-- Decode a stream of 6-bit groups into bytes the way Node's lenient base64
decoder assembles them: full groups of four give three bytes, a trailing pair
gives one byte, a trailing triple gives two, and a dangling single (or
nothing) gives none. -/
def b64Groups : List Nat → List Nat
  | i1 :: i2 :: i3 :: i4 :: rest =>
      (i1 * 4 + i2 / 16) :: (i2 % 16 * 16 + i3 / 4) :: (i3 % 4 * 64 + i4) :: b64Groups rest
  | [i1, i2] => [i1 * 4 + i2 / 16]
  | [i1, i2, i3] => [i1 * 4 + i2 / 16, i2 % 16 * 16 + i3 / 4]
  | _ => []

/-- Model of Node's `Buffer.from(s, "base64")`: characters outside both base64
alphabets (including `=`) are ignored, padding is optional, and the decode
never throws. -/
def nodeB64Decode (s : List Char) : List Nat :=
  b64Groups (s.filterMap b64AnyIdx)

/-- The character substitution `+ → -`, `/ → _` performed by
`uint8ArrayToBase64Url`. -/
def urlRepl (c : Char) : Char :=
  if c = '+' then '-' else if c = '/' then '_' else c

/-- The inverse substitution `- → +`, `_ → /` performed by
`base64urlToUint8Array` and `parseCoseP256Key`. -/
def urlUnrepl (c : Char) : Char :=
  if c = '-' then '+' else if c = '_' then '/' else c

/-- Model of `replace(/=+$/, "")`: drop all trailing `=` characters. -/
def stripTrailingEq (l : List Char) : List Char :=
  (l.reverse.dropWhile (fun c => c == '=')).reverse

/-- Model of `uint8ArrayToBase64Url` from the example server: standard base64
encode, substitute the url-safe characters, strip the padding. -/
def uint8ArrayToBase64Url (a : List Nat) : List Char :=
  stripTrailingEq ((encodeB64 a).map urlRepl)

/-- Model of `base64urlToUint8Array` from the example server: re-pad to a
multiple of four, undo the url-safe substitution, `atob`, then read the code
units back as bytes.  `none` models the `InvalidCharacterError` thrown by
`atob`. -/
def base64urlToUint8Array (s : List Char) : Option (List Nat) :=
  atobB64 ((s ++ List.replicate ((4 - s.length % 4) % 4) '=').map urlUnrepl)

/-- Big-endian value of a byte list (used for long-form BER lengths and
multi-byte CBOR arguments). -/
def beVal (bs : List Nat) : Nat := bs.foldl (fun a b => a * 256 + b) 0

/-- Parse a BER length octet sequence: short form below 128, long form with a
byte count otherwise.  The indefinite form (0x80) is outside the definite
subset modelled here (valid SPKI blobs are DER, hence definite). -/
def fromBERLen : List Nat → Option (Nat × List Nat)
  | [] => none
  | b :: rest =>
    if b < 128 then some (b, rest)
    else if b = 128 then none
    else
      let k := b - 128
      if k ≤ rest.length then some (beVal (rest.take k), rest.drop k) else none

/-- Parse one tag-length-value triple: the tag byte, the contents octets, and
the remaining input.  High tag numbers (low five bits all set) are outside the
modelled subset. -/
def parseTLV (bs : List Nat) : Option (Nat × List Nat × List Nat) :=
  match bs with
  | [] => none
  | t :: r1 =>
    if t % 32 = 31 then none
    else
      match fromBERLen r1 with
      | none => none
      | some (len, r2) =>
        if len ≤ r2.length then some (t, r2.take len, r2.drop len) else none

/-- Parse the contents octets of a constructed value into its list of child
tag-length-value triples, exactly consuming the input, the way `fromBER`
populates `valueBlock.value`.  A child carrying the universal BIT STRING tag
must be non-empty with an unused-bits octet of at most 7, as `asn1js` rejects
anything else while parsing; any violation fails the whole parse (offset -1).
The first argument is fuel; each child consumes input, so the input length is
always sufficient. -/
def parseTLVList : Nat → List Nat → Option (List (Nat × List Nat))
  | _, [] => some []
  | 0, _ :: _ => none
  | fuel + 1, b :: bs =>
    match parseTLV (b :: bs) with
    | none => none
    | some (t, c, rest) =>
      let bitStringOk : Bool :=
        if t = 3 then
          match c with
          | [] => false
          | u :: _ => u ≤ 7
        else true
      if bitStringOk then (parseTLVList fuel rest).map (fun l => (t, c) :: l)
      else none

/-- Error cases of `parseP256SpkiBase64`, one per distinct thrown `Error`
message in the source. -/
inductive SpkiError where
  | asn1ParseFailed
  | notValidSequence
  | noBitString
  | tooShort (len : Nat)
  | notUncompressed
  deriving DecidableEq

/-- The `{xHex, yHex}` result object of both decode paths. -/
structure CoordPair where
  xHex : List Char
  yHex : List Char
  deriving DecidableEq

/-- Model of `parseP256SpkiBase64` from `src/utils/parseCred.ts`: lenient
base64 decode (`Buffer.from(-, "base64")` never throws), `fromBER`, require a
constructed value with at least two children whose second carries the
universal BIT STRING tag, require its payload (the contents after the
unused-bits octet, i.e. `valueBlock.valueHex`) to be at least 65 bytes long
and to start with 0x04, and slice out bytes [1, 33) and [33, 65) as hex. -/
def parseP256SpkiBase64 (pubKeyB64 : List Char) : Except SpkiError CoordPair :=
  match parseTLV (nodeB64Decode pubKeyB64) with
  | none => .error .asn1ParseFailed
  | some (t, contents, _) =>
    if t / 32 % 2 = 1 then
      match parseTLVList contents.length contents with
      | none => .error .asn1ParseFailed
      | some children =>
        match children with
        | _ :: (t2, c2) :: _ =>
          if t2 = 3 then
            let pkBitString := c2.drop 1
            if pkBitString.length < 65 then .error (.tooShort pkBitString.length)
            else if pkBitString.head? ≠ some 4 then .error .notUncompressed
            else
              .ok { xHex := bytesToHex ((pkBitString.drop 1).take 32),
                    yHex := bytesToHex ((pkBitString.drop 33).take 32) }
          else .error .noBitString
        | _ => .error .notValidSequence
    else .error .notValidSequence

/-- CBOR data items, as decoded by `cbor.decodeFirstSync` into JavaScript
values.  Text items are modelled at the ASCII subset (one byte per
character); floats, tags and indefinite lengths are outside the modelled
subset — no claim exercises them. -/
inductive CborValue where
  | int (i : Int)
  | bytes (bs : List Nat)
  | text (cs : List Char)
  | arr (xs : List CborValue)
  | map (entries : List (CborValue × CborValue))
  | simple (n : Nat)

/-- Read the argument of a CBOR initial byte: immediate values below 24, then
1-, 2-, 4- or 8-byte big-endian arguments. -/
def readArg (info : Nat) (bs : List Nat) : Option (Nat × List Nat) :=
  if info < 24 then some (info, bs)
  else if info = 24 then
    match bs with
    | b :: r => some (b, r)
    | [] => none
  else if info = 25 then
    if 2 ≤ bs.length then some (beVal (bs.take 2), bs.drop 2) else none
  else if info = 26 then
    if 4 ≤ bs.length then some (beVal (bs.take 4), bs.drop 4) else none
  else if info = 27 then
    if 8 ≤ bs.length then some (beVal (bs.take 8), bs.drop 8) else none
  else none

/-- Pair up a flat key/value item run into map entries. -/
def pairUp : List CborValue → List (CborValue × CborValue)
  | k :: v :: rest => (k, v) :: pairUp rest
  | _ => []

/-- Decode a run of CBOR items (the second argument is how many), returning
them with the remaining bytes.  A definite-length array of n elements decodes
n nested items; a definite-length map of n entries decodes 2n nested items
which are then paired up in encounter order.  The first argument is fuel,
decremented once per decoded item and per nesting level; callers pass more
than twice the input length, which covers any decodable input. -/
def decodeMany : Nat → Nat → List Nat → Option (List CborValue × List Nat)
  | _, 0, bs => some ([], bs)
  | 0, _ + 1, _ => none
  | _ + 1, _ + 1, [] => none
  | fuel + 1, n + 1, b :: bs =>
    match
      (match readArg (b % 32) bs with
       | none => none
       | some (arg, r) =>
         if b / 32 = 0 then some (CborValue.int (Int.ofNat arg), r)
         else if b / 32 = 1 then some (CborValue.int (-1 - Int.ofNat arg), r)
         else if b / 32 = 2 then
           if arg ≤ r.length then some (CborValue.bytes (r.take arg), r.drop arg) else none
         else if b / 32 = 3 then
           if arg ≤ r.length then
             some (CborValue.text ((r.take arg).map Char.ofNat), r.drop arg)
           else none
         else if b / 32 = 4 then
           match decodeMany fuel arg r with
           | some (xs, r2) => some (CborValue.arr xs, r2)
           | none => none
         else if b / 32 = 5 then
           match decodeMany fuel (2 * arg) r with
           | some (kvs, r2) => some (CborValue.map (pairUp kvs), r2)
           | none => none
         else if b / 32 = 7 ∧ b % 32 < 24 then some (CborValue.simple arg, r)
         else none : Option (CborValue × List Nat))
    with
    | none => none
    | some (v, r2) =>
      match decodeMany fuel n r2 with
      | none => none
      | some (vs, r3) => some (v :: vs, r3)

/-- Decode the first CBOR item of a byte stream (`cbor.decodeFirstSync`),
returning it with the remaining bytes. -/
def decodeItem (fuel : Nat) (bs : List Nat) : Option (CborValue × List Nat) :=
  match decodeMany fuel 1 bs with
  | some ([v], r) => some (v, r)
  | _ => none

/-- Model of `Map.prototype.get` with an integer key on the decoded CBOR map:
entries were inserted in encounter order, so the last entry with the key
wins. -/
def cborMapGet (entries : List (CborValue × CborValue)) (k : Int) : Option CborValue :=
  match entries with
  | [] => none
  | (key, v) :: rest =>
    match cborMapGet rest k with
    | some w => some w
    | none =>
      match key with
      | .int i => if i = k then some v else none
      | _ => none

/-- JavaScript falsiness of a decoded CBOR value, as tested by
`if (!xBuf || !yBuf)`: the number 0, the empty string, `false`, `null` and
`undefined` are falsy; buffers (even empty ones), arrays and maps are
truthy. -/
def jsFalsy : CborValue → Bool
  | .int i => i == 0
  | .text cs => cs.isEmpty
  | .simple n => n == 20 || n == 22 || n == 23
  | _ => false

/-- UTF-8 encoding of one character (for `Buffer.from` on a string). -/
def utf8Encode (c : Char) : List Nat :=
  let n := c.toNat
  if n < 128 then [n]
  else if n < 2048 then [192 + n / 64, 128 + n % 64]
  else if n < 65536 then [224 + n / 4096, 128 + n / 64 % 64, 128 + n % 64]
  else [240 + n / 262144, 128 + n / 4096 % 64, 128 + n / 64 % 64, 128 + n % 64]

/-- Model of `Buffer.from` on a decoded CBOR value: a byte string maps to its
bytes, a text string to its UTF-8 bytes, an array to its entries reduced
modulo 256 (non-numeric entries coerce to 0); numbers, maps and simple values
make `Buffer.from` throw a `TypeError`, modelled as `none`. -/
def bufferFrom : CborValue → Option (List Nat)
  | .bytes bs => some bs
  | .text cs => some ((cs.map utf8Encode).flatten)
  | .arr xs =>
      some (xs.map (fun v =>
        match v with
        | .int i => (i % 256).toNat
        | _ => 0))
  | _ => none

/-- Error cases of `parseCoseP256Key`, one per distinct throw site. -/
inductive CoseError where
  | cborDecodeFailed
  | notMap
  | missingXY
  | bufferTypeError
  deriving DecidableEq

/-- The base64url-to-bytes front half of `parseCoseP256Key`: substitute the
url-safe characters back, re-pad unless already a multiple of four, and decode
with Node's lenient base64 decoder. -/
def coseToBytes (coseB64Url : List Char) : List Nat :=
  let base64 := coseB64Url.map urlUnrepl
  let pad := 4 - base64.length % 4
  let base64Padded := if pad ≠ 4 then base64 ++ List.replicate pad '=' else base64
  nodeB64Decode base64Padded

/-- The post-decode half of `parseCoseP256Key`: require a map, read labels -2
and -3, fail if either is absent or falsy, and hex-encode the two values. -/
def parseCoseStruct : CborValue → Except CoseError CoordPair
  | .map entries =>
    (match cborMapGet entries (-2), cborMapGet entries (-3) with
     | some xv, some yv =>
       if jsFalsy xv || jsFalsy yv then .error .missingXY
       else
         match bufferFrom xv, bufferFrom yv with
         | some xb, some yb => .ok { xHex := bytesToHex xb, yHex := bytesToHex yb }
         | _, _ => .error .bufferTypeError
     | _, _ => .error .missingXY)
  | _ => .error .notMap

/-- Model of `parseCoseP256Key` from the example server. -/
def parseCoseP256Key (coseB64Url : List Char) : Except CoseError CoordPair :=
  match decodeItem (2 * (coseToBytes coseB64Url).length + 2) (coseToBytes coseB64Url) with
  | none => .error .cborDecodeFailed
  | some (coseStruct, _) => parseCoseStruct coseStruct

/-- The per-user credential record stored by the example server. -/
structure CredentialRecord where
  credentialID : List Char
  publicKey : List Char
  counter : Nat
  deriving DecidableEq

/-- The `UserRecord` interface of the example server. -/
structure UserRecord where
  username : List Char
  credentials : CredentialRecord
  deriving DecidableEq

/-- The three process-wide maps of the example server: `userDB`,
`registrationChallengeMap` (userId → challenge) and `loginChallengeMap`
(the set of outstanding login challenges, since the stored value is always
`true`). -/
structure ServerState where
  userDB : List (List Char × UserRecord)
  registrationChallengeMap : List (List Char × List Char)
  loginChallengeMap : List (List Char)
  deriving DecidableEq

/-- JavaScript `Map.prototype.get`: first (and in a real `Map`, only) entry
with the key. -/
def assocGet {β : Type} : List (List Char × β) → List Char → Option β
  | [], _ => none
  | (k, v) :: r, a => if k = a then some v else assocGet r a

/-- JavaScript `Map.prototype.set`: replace the entry in place, or append a
fresh one. -/
def assocSet {β : Type} : List (List Char × β) → List Char → β → List (List Char × β)
  | [], a, b => [(a, b)]
  | (k, v) :: r, a, b => if k = a then (a, b) :: r else (k, v) :: assocSet r a b

/-- JavaScript `Map.prototype.delete`: remove the entry with the key. -/
def assocDelete {β : Type} : List (List Char × β) → List Char → List (List Char × β)
  | [], _ => []
  | (k, v) :: r, a => if k = a then r else (k, v) :: assocDelete r a

/-- Deletion from the login-challenge set. -/
def listDelete : List (List Char) → List Char → List (List Char)
  | [], _ => []
  | k :: r, a => if k = a then r else k :: listDelete r a

/-- The fields of `verification.registrationInfo` that the handler reads. -/
structure RegistrationInfo where
  credentialID : List Nat
  credentialPublicKey : List Nat
  counter : Nat

/-- Outcome of the external `verifyRegistrationResponse` call: it either
throws, or resolves with a `verified` flag and an optional
`registrationInfo`. -/
inductive RegVerification where
  | throws
  | result (verified : Bool) (info : Option RegistrationInfo)

/-- The JSON responses the `/verify-registration` handler can produce. -/
inductive RegResponse where
  | ok
  | errNoChallenge
  | errUserNotFound
  | errNotVerified
  | errCaught

/-- Model of the `/verify-registration` handler.  The external
`verifyRegistrationResponse` is abstracted as a function `verify` of the
`expectedChallenge` looked up for the user (the credential, relying-party
identifier, origin and user-verification policy are fixed inside the
closure).  The `if (!expectedChallenge)` guard is falsy-based: an absent and
an empty-string stored challenge are both rejected.  Returns the new server
state and the response. -/
def verifyRegistrationHandler (verify : List Char → RegVerification)
    (st : ServerState) (userId : List Char) : ServerState × RegResponse :=
  match assocGet st.registrationChallengeMap userId with
  | none => (st, .errNoChallenge)
  | some expectedChallenge =>
    if expectedChallenge = [] then (st, .errNoChallenge)
    else
      match assocGet st.userDB userId with
      | none => (st, .errUserNotFound)
      | some userRecord =>
        match verify expectedChallenge with
        | .throws => (st, .errCaught)
        | .result verified info =>
          match info, verified with
          | some registrationInfo, true =>
            ({ userDB := assocSet st.userDB userId
                 { username := userRecord.username,
                   credentials :=
                     { credentialID := uint8ArrayToBase64Url registrationInfo.credentialID,
                       publicKey := uint8ArrayToBase64Url registrationInfo.credentialPublicKey,
                       counter := registrationInfo.counter } },
               registrationChallengeMap := assocDelete st.registrationChallengeMap userId,
               loginChallengeMap := st.loginChallengeMap },
             .ok)
          | _, _ => (st, .errNotVerified)

/-- Outcome of the external `verifyAuthenticationResponse` call. -/
inductive AuthVerification where
  | throwsAssertion
  | throwsReplay
  | result (verified : Bool) (newCounter : Option Nat)

/-- Modelled from the spec: `verifyAuthenticationResponse` from
`@simplewebauthn/server` is not part of this repository.  Per the spec it
checks the challenge, origin, relying-party identifier and signature
(abstracted as `othersOk`) and the signature counter: the response-reported
counter must be strictly greater than the stored one unless both are zero,
anything else non-increasing signalling the replay error; on success
`authenticationInfo.newCounter` is the reported counter. -/
def verifyAuthenticationResponse (othersOk : Bool) (reportedCounter storedCounter : Nat) :
    AuthVerification :=
  if !othersOk then .throwsAssertion
  else if storedCounter < reportedCounter ∨ (reportedCounter = 0 ∧ storedCounter = 0) then
    .result true (some reportedCounter)
  else .throwsReplay

/-- The JSON responses the `/verify-login` handler can produce.  Both thrown
errors and the COSE parse failure land in the handler's `catch`, so they are
kept apart here only to name which error was caught. -/
inductive LoginResponse where
  | ok (xHex yHex : List Char)
  | errChallengeNotFound
  | errUserIdNotFound
  | errUserNotFound
  | errNotVerified
  | errCaughtAssertion
  | errCaughtReplay
  | errCaughtCose (e : CoseError)

/-- Model of the `/verify-login` handler.  `userHandle` is
`credential.response.userHandle` (`none`, or the claimed user identifier —
an empty string is falsy and also rejected); `reportedCounter` and `othersOk`
feed the abstracted external verification.  Mirrors the source order: on
success the stored counter is updated, then the challenge is deleted, and
only then is the stored public key parsed (a parse failure is caught after
those mutations). -/
def verifyLoginHandler (st : ServerState) (challenge : List Char)
    (userHandle : Option (List Char)) (reportedCounter : Nat) (othersOk : Bool) :
    ServerState × LoginResponse :=
  if challenge ∈ st.loginChallengeMap then
    match userHandle with
    | none => (st, .errUserIdNotFound)
    | some userId =>
      if userId = [] then (st, .errUserIdNotFound)
      else
        match assocGet st.userDB userId with
        | none => (st, .errUserNotFound)
        | some userRecord =>
          match verifyAuthenticationResponse othersOk reportedCounter
              userRecord.credentials.counter with
          | .throwsAssertion => (st, .errCaughtAssertion)
          | .throwsReplay => (st, .errCaughtReplay)
          | .result verified newCounter =>
            match newCounter, verified with
            | some n, true =>
              match parseCoseP256Key userRecord.credentials.publicKey with
              | .ok xy =>
                ({ st with
                   userDB := assocSet st.userDB userId
                     { userRecord with
                       credentials := { userRecord.credentials with counter := n } },
                   loginChallengeMap := listDelete st.loginChallengeMap challenge },
                 .ok xy.xHex xy.yHex)
              | .error e =>
                ({ st with
                   userDB := assocSet st.userDB userId
                     { userRecord with
                       credentials := { userRecord.credentials with counter := n } },
                   loginChallengeMap := listDelete st.loginChallengeMap challenge },
                 .errCaughtCose e)
            | _, _ => (st, .errNotVerified)
  else (st, .errChallengeNotFound)

/-- Sample valid SPKI blob: SEQUENCE { NULL, BIT STRING { 0 unused bits,
0x04, 32 X bytes of 1, 32 Y bytes of 2 } }. -/
def spkiSample : List Nat :=
  [0x30, 0x46, 0x05, 0x00, 0x03, 0x42, 0x00, 0x04] ++
    List.replicate 32 1 ++ List.replicate 32 2

/-- C3: for every valid SPKI byte sequence whose ASN.1 SEQUENCE has at least
two elements, whose second element is a BIT STRING with payload of at least 65
bytes starting with byte 0x04, `parseP256SpkiBase64` returns `xHex` equal to
the hex of payload bytes [1, 33) and `yHex` equal to the hex of payload bytes
[33, 65). -/
theorem spki_valid_extracts_coordinates (s : List Char) (t : Nat)
    (contents rest : List Nat) (k0 : Nat × List Nat) (u : Nat)
    (payload : List Nat) (tl : List (Nat × List Nat))
    (h1 : parseTLV (nodeB64Decode s) = some (t, contents, rest))
    (h2 : t / 32 % 2 = 1)
    (h3 : parseTLVList contents.length contents = some (k0 :: (3, u :: payload) :: tl))
    (h4 : 65 ≤ payload.length)
    (h5 : payload.head? = some 4) :
    parseP256SpkiBase64 s =
      .ok { xHex := bytesToHex ((payload.drop 1).take 32),
            yHex := bytesToHex ((payload.drop 33).take 32) } := by
  unfold parseP256SpkiBase64
  rw [h1]
  simp only [h2, if_pos, h3]
  have hlen : ¬ ((u :: payload).drop 1).length < 65 := by
    simp only [List.drop_one, List.tail_cons]
    omega
  simp only [List.drop_one, List.tail_cons, if_neg hlen, h5]
  simp [h4]

/-- Witness for C3 at the sample SPKI blob. -/
theorem spki_valid_extracts_coordinates_witness :
    parseP256SpkiBase64 (uint8ArrayToBase64Url spkiSample) =
      .ok { xHex := bytesToHex (List.replicate 32 1),
            yHex := bytesToHex (List.replicate 32 2) } := by
  have h := spki_valid_extracts_coordinates (uint8ArrayToBase64Url spkiSample)
    0x30 (spkiSample.drop 2) [] (5, []) 0
    (4 :: (List.replicate 32 1 ++ List.replicate 32 2)) []
    (by rfl) (by rfl) (by rfl) (by simp) (by rfl)
  simpa using h

/-- C4: every SPKI input violating a structural check — fewer than two
sequence elements, second element not a BIT STRING, BIT STRING payload
shorter than 65 bytes, or payload not starting with byte 0x04 — fails with
the error identifying that check, and (the result being an error) produces
no partial coordinate output. -/
theorem spki_structural_checks_fail :
    (∀ (s : List Char) (t : Nat) (contents rest : List Nat)
       (kids : List (Nat × List Nat)),
       parseTLV (nodeB64Decode s) = some (t, contents, rest) →
       t / 32 % 2 = 1 →
       parseTLVList contents.length contents = some kids →
       kids.length < 2 →
       parseP256SpkiBase64 s = .error .notValidSequence)
    ∧ (∀ (s : List Char) (t : Nat) (contents rest : List Nat)
         (k0 : Nat × List Nat) (t2 : Nat) (c2 : List Nat) (tl : List (Nat × List Nat)),
         parseTLV (nodeB64Decode s) = some (t, contents, rest) →
         t / 32 % 2 = 1 →
         parseTLVList contents.length contents = some (k0 :: (t2, c2) :: tl) →
         t2 ≠ 3 →
         parseP256SpkiBase64 s = .error .noBitString)
    ∧ (∀ (s : List Char) (t : Nat) (contents rest : List Nat)
         (k0 : Nat × List Nat) (u : Nat) (payload : List Nat) (tl : List (Nat × List Nat)),
         parseTLV (nodeB64Decode s) = some (t, contents, rest) →
         t / 32 % 2 = 1 →
         parseTLVList contents.length contents = some (k0 :: (3, u :: payload) :: tl) →
         payload.length < 65 →
         parseP256SpkiBase64 s = .error (.tooShort payload.length))
    ∧ (∀ (s : List Char) (t : Nat) (contents rest : List Nat)
         (k0 : Nat × List Nat) (u : Nat) (payload : List Nat) (tl : List (Nat × List Nat)),
         parseTLV (nodeB64Decode s) = some (t, contents, rest) →
         t / 32 % 2 = 1 →
         parseTLVList contents.length contents = some (k0 :: (3, u :: payload) :: tl) →
         65 ≤ payload.length →
         payload.head? ≠ some 4 →
         parseP256SpkiBase64 s = .error .notUncompressed) := by
  refine ⟨?_, ?_, ?_, ?_⟩
  · intro s t contents rest kids h1 h2 h3 hlen
    unfold parseP256SpkiBase64
    rw [h1]
    simp only [h2, if_pos, h3]
    match kids, hlen with
    | [], _ => rfl
    | [k], _ => rfl
  · intro s t contents rest k0 t2 c2 tl h1 h2 h3 ht2
    unfold parseP256SpkiBase64
    rw [h1]
    simp only [h2, if_pos, h3]
    simp [ht2]
  · intro s t contents rest k0 u payload tl h1 h2 h3 hshort
    unfold parseP256SpkiBase64
    rw [h1]
    simp only [h2, if_pos, h3]
    simp only [List.drop_one, List.tail_cons, if_pos hshort]
  · intro s t contents rest k0 u payload tl h1 h2 h3 hlong hhd
    unfold parseP256SpkiBase64
    rw [h1]
    simp only [h2, if_pos, h3]
    have hlen : ¬ payload.length < 65 := by omega
    simp only [List.drop_one, List.tail_cons, if_neg hlen]
    simp [hhd]

/-- Witness for C4: one concrete failing input per structural check. -/
theorem spki_structural_checks_fail_witness :
    parseP256SpkiBase64 (uint8ArrayToBase64Url [0x30, 0x02, 0x05, 0x00]) =
        .error .notValidSequence
    ∧ parseP256SpkiBase64 (uint8ArrayToBase64Url [0x30, 0x04, 0x05, 0x00, 0x05, 0x00]) =
        .error .noBitString
    ∧ parseP256SpkiBase64
        (uint8ArrayToBase64Url [0x30, 0x07, 0x05, 0x00, 0x03, 0x03, 0x00, 0x04, 0x01]) =
        .error (.tooShort 2)
    ∧ parseP256SpkiBase64
        (uint8ArrayToBase64Url
          ([0x30, 0x46, 0x05, 0x00, 0x03, 0x42, 0x00, 0x05] ++ List.replicate 64 9)) =
        .error .notUncompressed := by
  refine ⟨?_, ?_, ?_, ?_⟩
  · exact spki_structural_checks_fail.1 _ 0x30 [0x05, 0x00] [] [(5, [])]
      (by rfl) (by rfl) (by rfl) (by decide)
  · exact spki_structural_checks_fail.2.1 _ 0x30 [0x05, 0x00, 0x05, 0x00] [] (5, []) 5 [] []
      (by rfl) (by rfl) (by rfl) (by decide)
  · exact spki_structural_checks_fail.2.2.1 _ 0x30 [0x05, 0x00, 0x03, 0x03, 0x00, 0x04, 0x01]
      [] (5, []) 0 [4, 1] [] (by rfl) (by rfl) (by rfl) (by decide)
  · exact spki_structural_checks_fail.2.2.2 _ 0x30
      ([0x05, 0x00, 0x03, 0x42, 0x00, 0x05] ++ List.replicate 64 9) [] (5, []) 0
      (5 :: List.replicate 64 9) [] (by rfl) (by rfl) (by rfl) (by simp) (by decide)

/-- C9: both decode paths are deterministic pure functions — they are modelled
as total functions of their input alone, so two runs on the same input are
definitionally the same result, and the embedding has no state or effects to
thread. -/
theorem decode_paths_deterministic (s : List Char) :
    parseP256SpkiBase64 s = parseP256SpkiBase64 s
      ∧ parseCoseP256Key s = parseCoseP256Key s :=
  ⟨rfl, rfl⟩

/-- A COSE map carrying a one-byte x (label -2) and a one-byte y (label -3):
CBOR bytes for `{-2: h'01', -3: h'02'}`. -/
def coseShortSample : List Nat := [0xA2, 0x21, 0x41, 0x01, 0x22, 0x41, 0x02]

/-- C2 counterexample: `parseCoseP256Key` accepts a COSE map whose coordinate
entries are a single byte each and returns two-character hex strings, so the
accepted output is not always the hex encoding of exactly 32 bytes. -/
theorem cose_short_coordinates_accepted :
    parseCoseP256Key (uint8ArrayToBase64Url coseShortSample) =
        .ok { xHex := bytesToHex [1], yHex := bytesToHex [2] }
      ∧ (bytesToHex [1]).length = 2 := ⟨by rfl, by rfl⟩

/-- C2 as amended: the SPKI path always returns 64-character `xHex` and
`yHex`; the COSE path returns the hex encodings of the byte strings stored at
labels -2 and -3, whose length it does not constrain — twice the byte length,
which is 64 only when the entry holds exactly 32 bytes. -/
theorem decode_paths_hex_lengths :
    (∀ (s : List Char) (r : CoordPair),
       parseP256SpkiBase64 s = .ok r → r.xHex.length = 64 ∧ r.yHex.length = 64)
    ∧ (∀ (s : List Char) (entries : List (CborValue × CborValue))
         (rest xb yb : List Nat) (r : CoordPair),
         decodeItem (2 * (coseToBytes s).length + 2) (coseToBytes s) =
           some (.map entries, rest) →
         cborMapGet entries (-2) = some (.bytes xb) →
         cborMapGet entries (-3) = some (.bytes yb) →
         parseCoseP256Key s = .ok r →
         r.xHex.length = 2 * xb.length ∧ r.yHex.length = 2 * yb.length) := by
  constructor
  · intro s r h
    unfold parseP256SpkiBase64 at h
    split at h
    · exact Except.noConfusion h
    split at h
    · split at h
      · exact Except.noConfusion h
      · split at h
        · dsimp only at h
          split at h
          · split at h
            · exact Except.noConfusion h
            · split at h
              · exact Except.noConfusion h
              · rename_i pkBitString hlen hhd
                cases h
                constructor <;>
                  (rw [bytesToHex_length, List.length_take, List.length_drop]; omega)
          · exact Except.noConfusion h
        · exact Except.noConfusion h
    · exact Except.noConfusion h
  · intro s entries rest xb yb r hdec hx hy h
    unfold parseCoseP256Key at h
    rw [hdec] at h
    dsimp only at h
    unfold parseCoseStruct at h
    dsimp only at h
    rw [hx, hy] at h
    dsimp only [jsFalsy, bufferFrom] at h
    simp only [Bool.or_self, Bool.false_eq_true, if_false] at h
    cases h
    constructor <;> rw [bytesToHex_length]

/-- Witness for the amended C2 at the sample SPKI blob and the short COSE
map. -/
theorem decode_paths_hex_lengths_witness :
    ((CoordPair.mk (bytesToHex (List.replicate 32 1)) (bytesToHex (List.replicate 32 2))).xHex.length = 64
      ∧ (CoordPair.mk (bytesToHex (List.replicate 32 1)) (bytesToHex (List.replicate 32 2))).yHex.length = 64)
    ∧ ((CoordPair.mk (bytesToHex [1]) (bytesToHex [2])).xHex.length = 2 * ([1] : List Nat).length
      ∧ (CoordPair.mk (bytesToHex [1]) (bytesToHex [2])).yHex.length = 2 * ([2] : List Nat).length) := by
  constructor
  · exact decode_paths_hex_lengths.1 (uint8ArrayToBase64Url spkiSample)
      (CoordPair.mk (bytesToHex (List.replicate 32 1)) (bytesToHex (List.replicate 32 2)))
      (by rfl)
  · exact decode_paths_hex_lengths.2 (uint8ArrayToBase64Url coseShortSample)
      [(.int (-2), .bytes [1]), (.int (-3), .bytes [2])] [] [1] [2]
      (CoordPair.mk (bytesToHex [1]) (bytesToHex [2]))
      (by rfl) (by rfl) (by rfl) (by rfl)

/-- A COSE map whose entries at labels -2 and -3 are the integer 0:
CBOR bytes for `{-2: 0, -3: 0}`. -/
def coseFalsySample : List Nat := [0xA2, 0x21, 0x00, 0x22, 0x00]

/-- C5 counterexample: this input CBOR-decodes to a map containing entries at
both labels -2 and -3, yet `parseCoseP256Key` does not return them
hex-encoded — the entries (the number 0) are falsy, so the `!xBuf || !yBuf`
test misreports them as missing. -/
theorem cose_falsy_entry_reported_missing :
    decodeItem (2 * (coseToBytes (uint8ArrayToBase64Url coseFalsySample)).length + 2)
        (coseToBytes (uint8ArrayToBase64Url coseFalsySample)) =
      some (.map [(.int (-2), .int 0), (.int (-3), .int 0)], [])
    ∧ parseCoseP256Key (uint8ArrayToBase64Url coseFalsySample) = .error .missingXY :=
  ⟨by rfl, by rfl⟩

/-- C5 as amended: for every input that CBOR-decodes to a map containing
byte-string entries at labels -2 and -3, `parseCoseP256Key` returns those two
entries hex-encoded; for every input whose decoded map is missing either
label, or whose decoded value is not a map, it fails with the corresponding
error. -/
theorem cose_label_extraction :
    (∀ (s : List Char) (entries : List (CborValue × CborValue)) (rest xb yb : List Nat),
       decodeItem (2 * (coseToBytes s).length + 2) (coseToBytes s) =
         some (.map entries, rest) →
       cborMapGet entries (-2) = some (.bytes xb) →
       cborMapGet entries (-3) = some (.bytes yb) →
       parseCoseP256Key s = .ok { xHex := bytesToHex xb, yHex := bytesToHex yb })
    ∧ (∀ (s : List Char) (entries : List (CborValue × CborValue)) (rest : List Nat),
       decodeItem (2 * (coseToBytes s).length + 2) (coseToBytes s) =
         some (.map entries, rest) →
       cborMapGet entries (-2) = none ∨ cborMapGet entries (-3) = none →
       parseCoseP256Key s = .error .missingXY)
    ∧ (∀ (s : List Char) (v : CborValue) (rest : List Nat),
       decodeItem (2 * (coseToBytes s).length + 2) (coseToBytes s) = some (v, rest) →
       (∀ es, v ≠ CborValue.map es) →
       parseCoseP256Key s = .error .notMap) := by
  refine ⟨?_, ?_, ?_⟩
  · intro s entries rest xb yb hdec hx hy
    unfold parseCoseP256Key
    rw [hdec]
    dsimp only
    unfold parseCoseStruct
    dsimp only
    rw [hx, hy]
    dsimp only [jsFalsy, bufferFrom]
    simp
  · intro s entries rest hdec hmiss
    unfold parseCoseP256Key
    rw [hdec]
    dsimp only
    unfold parseCoseStruct
    dsimp only
    rcases hmiss with hx | hy
    · rw [hx]
    · rw [hy]
      cases hx2 : cborMapGet entries (-2) <;> rfl
  · intro s v rest hdec hnm
    unfold parseCoseP256Key
    rw [hdec]
    dsimp only
    unfold parseCoseStruct
    cases v with
    | map es => exact absurd rfl (hnm es)
    | int i => rfl
    | bytes bs => rfl
    | text cs => rfl
    | arr xs => rfl
    | simple n => rfl

/-- Witness for the amended C5: a map with byte entries, a map missing label
-3, and a non-map item. -/
theorem cose_label_extraction_witness :
    parseCoseP256Key (uint8ArrayToBase64Url coseShortSample) =
        .ok { xHex := bytesToHex [1], yHex := bytesToHex [2] }
    ∧ parseCoseP256Key (uint8ArrayToBase64Url [0xA1, 0x21, 0x41, 0x01]) =
        .error .missingXY
    ∧ parseCoseP256Key (uint8ArrayToBase64Url [0x01]) = .error .notMap := by
  refine ⟨?_, ?_, ?_⟩
  · exact cose_label_extraction.1 _ [(.int (-2), .bytes [1]), (.int (-3), .bytes [2])]
      [] [1] [2] (by rfl) (by rfl) (by rfl)
  · exact cose_label_extraction.2.1 _ [(.int (-2), .bytes [1])] [] (by rfl)
      (Or.inr (by rfl))
  · exact cose_label_extraction.2.2 _ (.int 1) [] (by rfl) (fun es h => nomatch h)

/-- A sample user record with an unparseable stored public key. -/
def sampleRecord : UserRecord :=
  { username := "alice".data,
    credentials := { credentialID := "cid".data, publicKey := "pk".data, counter := 5 } }

/-- A sample server state with one user and one pending registration
challenge. -/
def sampleRegState : ServerState :=
  { userDB := [("u".data, sampleRecord)],
    registrationChallengeMap := [("u".data, "ch".data)],
    loginChallengeMap := [] }

/-- A sample server state with one user and one outstanding login
challenge. -/
def sampleLoginState : ServerState :=
  { userDB := [("u".data, sampleRecord)],
    registrationChallengeMap := [],
    loginChallengeMap := ["c".data] }

/-- C1 counterexample: a `/verify-registration` call that finds the matching
challenge and then fails verification does not remove the challenge from
`registrationChallengeMap` — the delete only runs on the success path. -/
theorem registration_failure_keeps_challenge :
    assocGet sampleRegState.registrationChallengeMap "u".data = some "ch".data
    ∧ (verifyRegistrationHandler (fun _ => .result false none) sampleRegState "u".data).2 =
        .errNotVerified
    ∧ assocGet
        ((verifyRegistrationHandler (fun _ => .result false none) sampleRegState "u".data).1).registrationChallengeMap
        "u".data = some "ch".data :=
  ⟨rfl, rfl, rfl⟩

/-- C1 as amended: a `completeRegistration`/`completeLogin` call that fails
verification after a matching challenge was found leaves the entire server
state — user store and challenge maps alike — exactly as it was; the
challenge is consumed only by a successful verification, not by a failed
one. -/
theorem failed_verification_leaves_state_unchanged :
    (∀ (verify : List Char → RegVerification) (st : ServerState) (u ch : List Char)
       (rec : UserRecord),
       assocGet st.registrationChallengeMap u = some ch →
       assocGet st.userDB u = some rec →
       (∀ i, verify ch ≠ RegVerification.result true (some i)) →
       (verifyRegistrationHandler verify st u).1 = st)
    ∧ (∀ (st : ServerState) (c u : List Char) (rec : UserRecord) (rc : Nat) (ok : Bool),
       c ∈ st.loginChallengeMap →
       u ≠ [] →
       assocGet st.userDB u = some rec →
       ¬(ok = true ∧ (rec.credentials.counter < rc ∨ (rc = 0 ∧ rec.credentials.counter = 0))) →
       (verifyLoginHandler st c (some u) rc ok).1 = st) := by
  constructor
  · intro verify st u ch rec h1 h2 h3
    unfold verifyRegistrationHandler
    rw [h1]
    dsimp only
    by_cases hch : ch = []
    · rw [if_pos hch]
    · rw [if_neg hch, h2]
      dsimp only
      cases hv : verify ch with
      | throws => rfl
      | result verified info =>
        cases info with
        | none => cases verified <;> rfl
        | some i =>
          cases verified with
          | false => rfl
          | true => exact absurd hv (h3 i)
  · intro st c u rec rc ok hmem hu hrec hfail
    unfold verifyLoginHandler
    rw [if_pos hmem]
    dsimp only
    rw [if_neg hu, hrec]
    dsimp only
    cases ok with
    | false => rfl
    | true =>
      have hco : ¬(rec.credentials.counter < rc ∨ (rc = 0 ∧ rec.credentials.counter = 0)) := by
        intro hc
        exact hfail ⟨rfl, hc⟩
      unfold verifyAuthenticationResponse
      rw [if_neg hco]
      rfl

/-- Witness for the amended C1: a failed registration and a replayed login on
the sample states leave the states untouched. -/
theorem failed_verification_leaves_state_unchanged_witness :
    (verifyRegistrationHandler (fun _ => .result false none) sampleRegState "u".data).1 =
        sampleRegState
    ∧ (verifyLoginHandler sampleLoginState "c".data (some "u".data) 3 true).1 =
        sampleLoginState := by
  constructor
  · exact failed_verification_leaves_state_unchanged.1 _ sampleRegState "u".data "ch".data
      sampleRecord rfl rfl (by intro i h; simp at h)
  · exact failed_verification_leaves_state_unchanged.2 sampleLoginState "c".data "u".data
      sampleRecord 3 true (by decide) (by decide) rfl (by decide)

/-- A COSE public key stored as base64url text, as the server stores it. -/
def storedCoseKey : List Char := uint8ArrayToBase64Url coseShortSample

/-- A sample user record whose stored public key parses. -/
def sampleRecordParsing : UserRecord :=
  { username := "bob".data,
    credentials := { credentialID := "cid".data, publicKey := storedCoseKey, counter := 5 } }

/-- A sample login state whose user has a parseable stored key. -/
def sampleLoginStateParsing : ServerState :=
  { userDB := [("u".data, sampleRecordParsing)],
    registrationChallengeMap := [],
    loginChallengeMap := ["c".data] }

/-- C6: with stored counter N, a login whose assertion reports a counter not
strictly greater than N (and not the zero/zero case) fails with the replay
error and leaves the state — in particular the stored counter — unchanged;
a login reporting a strictly greater counter (or zero against zero) whose
remaining verification succeeds returns ok and updates the stored counter to
the reported value.  The counter rule itself lives in the external
`verifyAuthenticationResponse`, modelled from the spec. -/
theorem login_counter_replay_check :
    (∀ (st : ServerState) (c u : List Char) (rec : UserRecord) (rc : Nat),
       c ∈ st.loginChallengeMap →
       u ≠ [] →
       assocGet st.userDB u = some rec →
       rc ≤ rec.credentials.counter →
       ¬(rc = 0 ∧ rec.credentials.counter = 0) →
       verifyLoginHandler st c (some u) rc true = (st, .errCaughtReplay))
    ∧ (∀ (st : ServerState) (c u : List Char) (rec : UserRecord) (rc : Nat) (xy : CoordPair),
       c ∈ st.loginChallengeMap →
       u ≠ [] →
       assocGet st.userDB u = some rec →
       rec.credentials.counter < rc ∨ (rc = 0 ∧ rec.credentials.counter = 0) →
       parseCoseP256Key rec.credentials.publicKey = .ok xy →
       verifyLoginHandler st c (some u) rc true =
         ({ st with
            userDB := assocSet st.userDB u
              { rec with credentials := { rec.credentials with counter := rc } },
            loginChallengeMap := listDelete st.loginChallengeMap c },
          .ok xy.xHex xy.yHex)) := by
  constructor
  · intro st c u rec rc hmem hu hrec hle hnz
    unfold verifyLoginHandler
    rw [if_pos hmem]
    dsimp only
    rw [if_neg hu, hrec]
    dsimp only
    have hco : ¬(rec.credentials.counter < rc ∨ (rc = 0 ∧ rec.credentials.counter = 0)) := by
      intro hc
      rcases hc with hlt | hz
      · omega
      · exact hnz hz
    unfold verifyAuthenticationResponse
    rw [if_neg hco]
    rfl
  · intro st c u rec rc xy hmem hu hrec hok hparse
    unfold verifyLoginHandler
    rw [if_pos hmem]
    dsimp only
    rw [if_neg hu, hrec]
    dsimp only
    unfold verifyAuthenticationResponse
    rw [if_pos hok]
    rw [hparse]
    rfl

/-- Witness for C6 on the sample login state: stored counter 5 rejects a
reported counter of 3 and accepts 6, updating the store. -/
theorem login_counter_replay_check_witness :
    verifyLoginHandler sampleLoginStateParsing "c".data (some "u".data) 3 true =
        (sampleLoginStateParsing, .errCaughtReplay)
    ∧ verifyLoginHandler sampleLoginStateParsing "c".data (some "u".data) 6 true =
        ({ sampleLoginStateParsing with
           userDB := assocSet sampleLoginStateParsing.userDB "u".data
             { sampleRecordParsing with
               credentials := { sampleRecordParsing.credentials with counter := 6 } },
           loginChallengeMap := listDelete sampleLoginStateParsing.loginChallengeMap "c".data },
         .ok (bytesToHex [1]) (bytesToHex [2])) := by
  constructor
  · exact login_counter_replay_check.1 sampleLoginStateParsing "c".data "u".data
      sampleRecordParsing 3 (by decide) (by decide) rfl (by decide) (by decide)
  · exact login_counter_replay_check.2 sampleLoginStateParsing "c".data "u".data
      sampleRecordParsing 6 (CoordPair.mk (bytesToHex [1]) (bytesToHex [2]))
      (by decide) (by decide) rfl (by decide) (by rfl)

/-- C8: on successful attestation verification, `/verify-registration` stores
exactly the credential identifier and public key (base64url-encoded) and the
counter extracted from the verified attestation, overwriting the user's prior
record; on any verification failure the user store is unchanged.  Verification
is only reached past the falsy-challenge guard, hence the non-empty stored
challenge hypothesis in the success case. -/
theorem registration_commit_exact_or_none :
    (∀ (verify : List Char → RegVerification) (st : ServerState) (u ch : List Char)
       (rec : UserRecord) (i : RegistrationInfo),
       assocGet st.registrationChallengeMap u = some ch →
       ch ≠ [] →
       assocGet st.userDB u = some rec →
       verify ch = .result true (some i) →
       verifyRegistrationHandler verify st u =
         ({ userDB := assocSet st.userDB u
              { username := rec.username,
                credentials :=
                  { credentialID := uint8ArrayToBase64Url i.credentialID,
                    publicKey := uint8ArrayToBase64Url i.credentialPublicKey,
                    counter := i.counter } },
            registrationChallengeMap := assocDelete st.registrationChallengeMap u,
            loginChallengeMap := st.loginChallengeMap }, .ok))
    ∧ (∀ (verify : List Char → RegVerification) (st : ServerState) (u : List Char),
       (∀ ch i, verify ch ≠ RegVerification.result true (some i)) →
       (verifyRegistrationHandler verify st u).1.userDB = st.userDB) := by
  constructor
  · intro verify st u ch rec i h1 hne h2 hv
    unfold verifyRegistrationHandler
    rw [h1]
    dsimp only
    rw [if_neg hne, h2]
    dsimp only
    rw [hv]
  · intro verify st u hfail
    unfold verifyRegistrationHandler
    cases h1 : assocGet st.registrationChallengeMap u with
    | none => rfl
    | some ch =>
      dsimp only
      by_cases hch : ch = []
      · rw [if_pos hch]
      · rw [if_neg hch]
        cases h2 : assocGet st.userDB u with
        | none => rfl
        | some rec =>
          dsimp only
          cases hv : verify ch with
          | throws => rfl
          | result verified info =>
            cases info with
            | none => cases verified <;> rfl
            | some i =>
              cases verified with
              | false => rfl
              | true => exact absurd hv (hfail ch i)

/-- Witness for C8: a successful registration commits the extracted record on
the sample state; a throwing verification leaves the user store unchanged. -/
theorem registration_commit_exact_or_none_witness :
    verifyRegistrationHandler (fun _ => .result true (some ⟨[1, 2], [3, 4], 7⟩))
        sampleRegState "u".data =
      ({ userDB := assocSet sampleRegState.userDB "u".data
           { username := sampleRecord.username,
             credentials :=
               { credentialID := uint8ArrayToBase64Url [1, 2],
                 publicKey := uint8ArrayToBase64Url [3, 4],
                 counter := 7 } },
         registrationChallengeMap := assocDelete sampleRegState.registrationChallengeMap "u".data,
         loginChallengeMap := sampleRegState.loginChallengeMap }, .ok)
    ∧ (verifyRegistrationHandler (fun _ => .throws) sampleRegState "u".data).1.userDB =
        sampleRegState.userDB := by
  constructor
  · exact registration_commit_exact_or_none.1 _ sampleRegState "u".data "ch".data
      sampleRecord ⟨[1, 2], [3, 4], 7⟩ rfl (by decide) rfl rfl
  · exact registration_commit_exact_or_none.2 _ sampleRegState "u".data
      (fun ch i h => nomatch h)

theorem listDelete_subset (l : List (List Char)) (a x : List Char)
    (h : x ∈ listDelete l a) : x ∈ l := by
  induction l with
  | nil => simp [listDelete] at h
  | cons k r ih =>
    by_cases hk : k = a
    · simp only [listDelete, if_pos hk] at h
      exact List.mem_cons_of_mem _ h
    · simp only [listDelete, if_neg hk] at h
      rcases List.mem_cons.mp h with h1 | h1
      · exact h1 ▸ List.mem_cons_self _ _
      · exact List.mem_cons_of_mem _ (ih h1)

/-- The `/verify-login` handler never adds a login challenge: its resulting
`loginChallengeMap` is the old one, or the old one with the presented
challenge deleted. -/
theorem verifyLoginHandler_map_cases (st : ServerState) (c : List Char)
    (uh : Option (List Char)) (rc : Nat) (ok : Bool) :
    (verifyLoginHandler st c uh rc ok).1.loginChallengeMap = st.loginChallengeMap
      ∨ (verifyLoginHandler st c uh rc ok).1.loginChallengeMap =
          listDelete st.loginChallengeMap c := by
  unfold verifyLoginHandler
  repeat' split
  all_goals first | exact Or.inl rfl | exact Or.inr rfl

theorem verifyLoginHandler_no_insert (st : ServerState) (c ch : List Char)
    (uh : Option (List Char)) (rc : Nat) (ok : Bool)
    (h : c ∉ st.loginChallengeMap) :
    c ∉ (verifyLoginHandler st ch uh rc ok).1.loginChallengeMap := by
  rcases verifyLoginHandler_map_cases st ch uh rc ok with hc | hc <;> rw [hc]
  · exact h
  · intro hmem
    exact h (listDelete_subset _ _ _ hmem)

/-- Fold a sequence of `/verify-login` calls (challenge, user handle,
reported counter, other-checks flag) over the server state. -/
def applyLogins (st : ServerState)
    (calls : List (List Char × Option (List Char) × Nat × Bool)) : ServerState :=
  calls.foldl (fun s a => (verifyLoginHandler s a.1 a.2.1 a.2.2.1 a.2.2.2).1) st

theorem applyLogins_no_insert (c : List Char)
    (calls : List (List Char × Option (List Char) × Nat × Bool)) :
    ∀ st : ServerState, c ∉ st.loginChallengeMap →
      c ∉ (applyLogins st calls).loginChallengeMap := by
  induction calls with
  | nil => intro st h; exact h
  | cons a rest ih =>
    intro st h
    exact ih _ (verifyLoginHandler_no_insert st c a.1 a.2.1 a.2.2.1 a.2.2.2 h)

/-- A `/verify-login` call presenting a challenge that is not outstanding
fails immediately and changes nothing. -/
theorem verifyLoginHandler_not_found (st : ServerState) (c : List Char)
    (uh : Option (List Char)) (rc : Nat) (ok : Bool)
    (h : c ∉ st.loginChallengeMap) :
    verifyLoginHandler st c uh rc ok = (st, .errChallengeNotFound) := by
  unfold verifyLoginHandler
  rw [if_neg h]

/-- C7: once a `/verify-login` call has consumed challenge `c` (it is gone
from the resulting `loginChallengeMap`), every subsequent `/verify-login`
call presenting `c` — after any further sequence of login calls — fails with
the challenge-not-found error and leaves the state unchanged. -/
theorem login_challenge_single_use (st : ServerState) (c : List Char)
    (uh : Option (List Char)) (rc : Nat) (ok : Bool)
    (hconsumed : c ∉ ((verifyLoginHandler st c uh rc ok).1).loginChallengeMap) :
    ∀ (calls : List (List Char × Option (List Char) × Nat × Bool))
      (uh' : Option (List Char)) (rc' : Nat) (ok' : Bool),
      verifyLoginHandler (applyLogins ((verifyLoginHandler st c uh rc ok).1) calls) c uh' rc' ok' =
        (applyLogins ((verifyLoginHandler st c uh rc ok).1) calls, .errChallengeNotFound) := by
  intro calls uh' rc' ok'
  exact verifyLoginHandler_not_found _ c uh' rc' ok'
    (applyLogins_no_insert c calls _ hconsumed)

/-- Witness for C7: the sample login consumes challenge "c"; presenting it
again immediately afterwards is rejected. -/
theorem login_challenge_single_use_witness :
    verifyLoginHandler
        (applyLogins ((verifyLoginHandler sampleLoginState "c".data (some "u".data) 6 true).1) [])
        "c".data none 0 false =
      (applyLogins ((verifyLoginHandler sampleLoginState "c".data (some "u".data) 6 true).1) [],
        .errChallengeNotFound) :=
  login_challenge_single_use sampleLoginState "c".data (some "u".data) 6 true
    (by decide) [] none 0 false

theorem b64StdIdx_b64Char : ∀ n, n < 64 → b64StdIdx (b64Char n) = some n := by decide

theorem b64Char_ne_pad : ∀ n, n < 64 → b64Char n ≠ '=' := by decide

theorem urlRepl_b64Char_ne_pad : ∀ n, n < 64 → urlRepl (b64Char n) ≠ '=' := by decide

theorem urlUnrepl_urlRepl_b64Char : ∀ n, n < 64 → urlUnrepl (urlRepl (b64Char n)) = b64Char n := by
  decide

/-- Decoding inverts encoding on the padded standard-base64 form. -/
theorem atobB64_encodeB64 (a : List Nat) (h : ∀ b ∈ a, b < 256) :
    atobB64 (encodeB64 a) = some a := by
  induction a using encodeB64.induct with
  | case1 => rfl
  | case2 b1 =>
    have h1 : b1 < 256 := h b1 (by simp)
    have e1 : b64StdIdx (b64Char (b1 / 4)) = some (b1 / 4) := b64StdIdx_b64Char _ (by omega)
    have e2 : b64StdIdx (b64Char (b1 % 4 * 16)) = some (b1 % 4 * 16) :=
      b64StdIdx_b64Char _ (by omega)
    have ev : b1 / 4 * 4 + b1 % 4 * 16 / 16 = b1 := by omega
    simp only [encodeB64, atobB64]
    rw [e1, e2]
    simp
    omega
  | case3 b1 b2 =>
    have h1 : b1 < 256 := h b1 (by simp)
    have h2 : b2 < 256 := h b2 (by simp)
    have e1 : b64StdIdx (b64Char (b1 / 4)) = some (b1 / 4) := b64StdIdx_b64Char _ (by omega)
    have e2 : b64StdIdx (b64Char (b1 % 4 * 16 + b2 / 16)) = some (b1 % 4 * 16 + b2 / 16) :=
      b64StdIdx_b64Char _ (by omega)
    have e3 : b64StdIdx (b64Char (b2 % 16 * 4)) = some (b2 % 16 * 4) :=
      b64StdIdx_b64Char _ (by omega)
    have hne : b64Char (b1 % 4 * 16 + b2 / 16) ≠ '=' := by
      have := b64Char_ne_pad (b1 % 4 * 16 + b2 / 16) (by omega)
      exact this
    have hne3 : ¬ b64Char (b2 % 16 * 4) = '=' := b64Char_ne_pad _ (by omega)
    have ev1 : b1 / 4 * 4 + (b1 % 4 * 16 + b2 / 16) / 16 = b1 := by omega
    have ev2 : (b1 % 4 * 16 + b2 / 16) % 16 * 16 + b2 % 16 * 4 / 4 = b2 := by omega
    simp only [encodeB64, atobB64]
    rw [e1, e2]
    simp only [if_neg hne3, e3]
    simp
    omega
  | case4 b1 b2 b3 rest ih =>
    have h1 : b1 < 256 := h b1 (by simp)
    have h2 : b2 < 256 := h b2 (by simp)
    have h3 : b3 < 256 := h b3 (by simp)
    have hrest : ∀ b ∈ rest, b < 256 := fun b hb => h b (by simp [hb])
    have e1 : b64StdIdx (b64Char (b1 / 4)) = some (b1 / 4) := b64StdIdx_b64Char _ (by omega)
    have e2 : b64StdIdx (b64Char (b1 % 4 * 16 + b2 / 16)) = some (b1 % 4 * 16 + b2 / 16) :=
      b64StdIdx_b64Char _ (by omega)
    have e3 : b64StdIdx (b64Char (b2 % 16 * 4 + b3 / 64)) = some (b2 % 16 * 4 + b3 / 64) :=
      b64StdIdx_b64Char _ (by omega)
    have e4 : b64StdIdx (b64Char (b3 % 64)) = some (b3 % 64) := b64StdIdx_b64Char _ (by omega)
    have hne3 : ¬ b64Char (b2 % 16 * 4 + b3 / 64) = '=' := b64Char_ne_pad _ (by omega)
    have hne4 : ¬ b64Char (b3 % 64) = '=' := b64Char_ne_pad _ (by omega)
    have ev1 : b1 / 4 * 4 + (b1 % 4 * 16 + b2 / 16) / 16 = b1 := by omega
    have ev2 : (b1 % 4 * 16 + b2 / 16) % 16 * 16 + (b2 % 16 * 4 + b3 / 64) / 4 = b2 := by omega
    have ev3 : (b2 % 16 * 4 + b3 / 64) % 4 * 64 + b3 % 64 = b3 := by omega
    simp only [encodeB64, atobB64]
    rw [e1, e2]
    simp only [if_neg hne3, e3, if_neg hne4, e4, ih hrest]
    simp
    refine ⟨by omega, by omega, by omega⟩

/-- Shape of the encoder output: alphabet characters followed by at most two
padding characters, with total length a multiple of four. -/
theorem encodeB64_decomp (a : List Nat) (h : ∀ b ∈ a, b < 256) :
    ∃ body k, encodeB64 a = body ++ List.replicate k '=' ∧ k ≤ 2 ∧
      (body.length + k) % 4 = 0 ∧ ∀ c ∈ body, ∃ n, n < 64 ∧ c = b64Char n := by
  induction a using encodeB64.induct with
  | case1 => exact ⟨[], 0, rfl, by omega, by simp, by simp⟩
  | case2 b1 =>
    have h1 : b1 < 256 := h b1 (by simp)
    refine ⟨[b64Char (b1 / 4), b64Char (b1 % 4 * 16)], 2, rfl, by omega, by simp, ?_⟩
    intro c hc
    simp only [List.mem_cons, List.not_mem_nil, or_false] at hc
    rcases hc with rfl | rfl
    · exact ⟨b1 / 4, by omega, rfl⟩
    · exact ⟨b1 % 4 * 16, by omega, rfl⟩
  | case3 b1 b2 =>
    have h1 : b1 < 256 := h b1 (by simp)
    have h2 : b2 < 256 := h b2 (by simp)
    refine ⟨[b64Char (b1 / 4), b64Char (b1 % 4 * 16 + b2 / 16), b64Char (b2 % 16 * 4)], 1,
      rfl, by omega, by simp, ?_⟩
    intro c hc
    simp only [List.mem_cons, List.not_mem_nil, or_false] at hc
    rcases hc with rfl | rfl | rfl
    · exact ⟨b1 / 4, by omega, rfl⟩
    · exact ⟨b1 % 4 * 16 + b2 / 16, by omega, rfl⟩
    · exact ⟨b2 % 16 * 4, by omega, rfl⟩
  | case4 b1 b2 b3 rest ih =>
    have h1 : b1 < 256 := h b1 (by simp)
    have h2 : b2 < 256 := h b2 (by simp)
    have h3 : b3 < 256 := h b3 (by simp)
    have hrest : ∀ b ∈ rest, b < 256 := fun b hb => h b (by simp [hb])
    obtain ⟨body, k, hb, hk, hlen, hmem⟩ := ih hrest
    refine ⟨b64Char (b1 / 4) :: b64Char (b1 % 4 * 16 + b2 / 16) ::
      b64Char (b2 % 16 * 4 + b3 / 64) :: b64Char (b3 % 64) :: body, k, ?_, hk, ?_, ?_⟩
    · simp [encodeB64, hb]
    · simp only [List.length_cons]
      omega
    · intro c hc
      simp only [List.mem_cons] at hc
      rcases hc with rfl | rfl | rfl | rfl | hc
      · exact ⟨b1 / 4, by omega, rfl⟩
      · exact ⟨b1 % 4 * 16 + b2 / 16, by omega, rfl⟩
      · exact ⟨b2 % 16 * 4 + b3 / 64, by omega, rfl⟩
      · exact ⟨b3 % 64, by omega, rfl⟩
      · exact hmem c hc

theorem dropWhile_replicate_append (p : Char → Bool) (k : Nat) (c : Char)
    (l : List Char) (hc : p c = true) :
    ((List.replicate k c) ++ l).dropWhile p = l.dropWhile p := by
  induction k with
  | zero => simp
  | succ k ih => simp [List.replicate_succ, List.dropWhile_cons, hc, ih]

theorem dropWhile_eq_self_of (p : Char → Bool) (l : List Char)
    (h : ∀ x ∈ l, p x = false) : l.dropWhile p = l := by
  cases l with
  | nil => rfl
  | cons x xs => simp [List.dropWhile_cons, h x (by simp)]

theorem stripTrailingEq_append (body : List Char) (k : Nat)
    (hb : ∀ c ∈ body, c ≠ '=') :
    stripTrailingEq (body ++ List.replicate k '=') = body := by
  unfold stripTrailingEq
  rw [List.reverse_append, List.reverse_replicate,
    dropWhile_replicate_append _ k '=' body.reverse (by simp),
    dropWhile_eq_self_of _ body.reverse ?hall, List.reverse_reverse]
  case hall =>
    intro x hx
    have hxb : x ∈ body := List.mem_reverse.mp hx
    simpa using hb x hxb

theorem map_id_of_mem {α : Type} (l : List α) (f : α → α) (h : ∀ c ∈ l, f c = c) :
    l.map f = l := by
  induction l with
  | nil => rfl
  | cons x xs ih =>
    simp only [List.map_cons, h x (by simp), List.cons.injEq, true_and]
    exact ih fun c hc => h c (by simp [hc])

/-- C10: the server's base64url encode and decode helpers form a round trip
on every byte array. -/
theorem base64url_roundtrip (a : List Nat) (h : ∀ b ∈ a, b < 256) :
    base64urlToUint8Array (uint8ArrayToBase64Url a) = some a := by
  obtain ⟨body, k, hb, hk, hlen, hmem⟩ := encodeB64_decomp a h
  have hrepl_ne : ∀ c ∈ body.map urlRepl, c ≠ '=' := by
    intro c hc
    obtain ⟨d, hd, rfl⟩ := List.mem_map.mp hc
    obtain ⟨n, hn, rfl⟩ := hmem d hd
    exact urlRepl_b64Char_ne_pad n hn
  have henc : uint8ArrayToBase64Url a = body.map urlRepl := by
    unfold uint8ArrayToBase64Url
    rw [hb, List.map_append, List.map_replicate]
    have : urlRepl '=' = '=' := rfl
    rw [this, stripTrailingEq_append _ k hrepl_ne]
  rw [henc]
  unfold base64urlToUint8Array
  have hpad : (4 - (body.map urlRepl).length % 4) % 4 = k := by
    rw [List.length_map]
    omega
  rw [hpad]
  have hun : ((body.map urlRepl ++ List.replicate k '=').map urlUnrepl) =
      body ++ List.replicate k '=' := by
    rw [List.map_append, List.map_map, List.map_replicate]
    have h1 : body.map (urlUnrepl ∘ urlRepl) = body := by
      apply map_id_of_mem
      intro c hc
      obtain ⟨n, hn, rfl⟩ := hmem c hc
      exact urlUnrepl_urlRepl_b64Char n hn
    rw [h1]
    rfl
  rw [hun, ← hb]
  exact atobB64_encodeB64 a h

/-- Witness for C10 at a concrete byte array. -/
theorem base64url_roundtrip_witness :
    (∀ b ∈ ([0, 255, 77, 16] : List Nat), b < 256)
      ∧ base64urlToUint8Array (uint8ArrayToBase64Url [0, 255, 77, 16]) =
          some [0, 255, 77, 16] :=
  ⟨by decide, base64url_roundtrip [0, 255, 77, 16] (by decide)⟩
